import Mathlib

/-!
Verification of the frame-alignment core of the webrtc-conductor repository.

The development shallowly embeds the three core functions of
`process_rtc_2_video.py` — `parse_rtc_log` (Log Parser), `parse_frame_dump`
(Frame Extractor) and `correlate_frames` (Correlator) — and proves or refutes
the specification's claims about them.

Modelling conventions:
- Python lists become `List`; indexing `xs[i]` becomes `List.get?` with an
  explicit `IndexError` (`PyErr.indexError`) when the code can raise.
- Python floats (`RelativeTime`, `time`) are modelled as `ℚ`; all claims
  settled here depend only on exact arithmetic identities that hold in both.
- The regex layer of the Log Parser is abstracted into a per-line sum type
  `LogLine` (each physical line matches at most one pattern; the assembled
  pattern takes precedence in the source's if/elif, which the sum type
  reflects by making the kinds disjoint).
- The libav layer of the Frame Extractor is abstracted into containers,
  streams and packets carrying the exact fields the source reads.
-/

namespace Conductor

/-- Python exception outcomes the embedded code can produce. -/
inductive PyErr where
  | indexError
deriving DecidableEq, Repr

/-- AssembledFrame log record, from the `AssembledFrame:` pattern of
`parse_rtc_log` in `process_rtc_2_video.py`. -/
structure AssembledInfo where
  First : Nat
  Last : Nat
  EncodedBufsz : Nat
  NumPktExp : Nat
  NumPktRecv : Nat
  NumNack : Nat
  MaxNack : Nat
deriving DecidableEq, Repr

/-- Decoded-frame log record, from the `Decoded frame:` pattern of
`parse_rtc_log`; `Assembled` is the deferred join with the assembled map. -/
structure DecodedFrame where
  RelativeTime : ℚ
  ts : Nat
  First : Nat
  Last : Nat
  qp : Nat
  w : Nat
  h : Nat
  frameType : String
  Assembled : Option AssembledInfo
deriving DecidableEq, Repr

/-- Container frame descriptor built by `parse_frame_dump` from one packet. -/
structure IvfFrame where
  RelativeTime : ℚ
  time : ℚ
  pts : Int
  size : Nat
  width : Nat
  height : Nat
  key_frame : Bool
  pict_type : String
  is_corrupt : Bool
deriving DecidableEq, Repr

/-- Values the `sync_error` field of a correlated row takes in
`correlate_frames` ("None", "extra_frame", "mismatch"). -/
inductive SyncTag where
  | noneTag
  | extra_frame
  | mismatch
deriving DecidableEq, Repr

/-- Values the `reason` field of the unmatched entries takes. -/
inductive UReason where
  | extra_log_no_assembled
  | extra_frame
  | extra_log
  | mismatch
  | extra_ivf_tail
  | extra_log_tail
deriving DecidableEq, Repr

/-- One entry of `correlated_frames`; `log = none` models the empty dict `{}`
used in the container-skip branch. -/
structure CorrEntry where
  ivf_index : Nat
  log_index : Nat
  ivf : IvfFrame
  log : Option DecodedFrame
  sync_error : SyncTag
deriving DecidableEq, Repr

/-- One entry of `unmatched_ivf`. -/
structure UIvfEntry where
  ivf_index : Nat
  ivf : IvfFrame
  reason : UReason
deriving DecidableEq, Repr

/-- One entry of `unmatched_log`. -/
structure ULogEntry where
  log_index : Nat
  log : DecodedFrame
  reason : UReason
deriving DecidableEq, Repr

/-- The dictionary `correlate_frames` returns. -/
structure CorrelateResult where
  correlated_frames : List CorrEntry
  unmatched_ivf : List UIvfEntry
  unmatched_log : List ULogEntry
deriving DecidableEq, Repr

/-- The inner `is_match` of `correlate_frames`: Assembled present and
width, height and encoded size agree. -/
def is_match (ivf_item : IvfFrame) (log_item : DecodedFrame) : Bool :=
  match log_item.Assembled with
  | none => false
  | some assembled =>
    ivf_item.width == log_item.w && ivf_item.height == log_item.h
      && ivf_item.size == assembled.EncodedBufsz

/-- Option-lifted `is_match`, false when either side is absent; used to state
the guarded lookahead accesses (`i + 1 < n and is_match(...)`). -/
def is_matchO : Option IvfFrame → Option DecodedFrame → Bool
  | some c, some l => is_match c l
  | _, _ => false

/-- The `skip_ivf_realigns` condition of `correlate_frames`, with the source's
short-circuited bound checks expressed through `List.get?`. -/
def skip_ivf_realigns (fi : List IvfFrame) (df : List DecodedFrame)
    (i j : Nat) : Bool :=
  decide (i + 1 < fi.length) && is_matchO (fi.get? (i + 1)) (df.get? j)
    && (decide (i + 2 < fi.length) && decide (j + 1 < df.length)
        && is_matchO (fi.get? (i + 2)) (df.get? (j + 1)))

/-- The `skip_log_realigns` condition of `correlate_frames`. -/
def skip_log_realigns (fi : List IvfFrame) (df : List DecodedFrame)
    (i j : Nat) : Bool :=
  decide (j + 1 < df.length) && is_matchO (fi.get? i) (df.get? (j + 1))
    && (decide (i + 1 < fi.length) && decide (j + 2 < df.length)
        && is_matchO (fi.get? (i + 1)) (df.get? (j + 2)))

/-- The five mutually exclusive branches of the main loop body of
`correlate_frames`, in source order. -/
inductive StepBranch where
  | skipNoAssembled
  | directMatch
  | containerSkip
  | logSkip
  | hardMismatch
deriving DecidableEq, Repr

/-- Branch selection of one main-loop iteration of `correlate_frames`:
the source's if/elif chain over the current elements `c = frames_info[i]`,
`l = decoded_frames[j]`. -/
def stepDecision (fi : List IvfFrame) (df : List DecodedFrame)
    (c : IvfFrame) (l : DecodedFrame) (i j : Nat) : StepBranch :=
  if l.Assembled.isNone then .skipNoAssembled
  else if is_match c l then .directMatch
  else if skip_ivf_realigns fi df i j then .containerSkip
  else if skip_log_realigns fi df i j then .logSkip
  else .hardMismatch

/-- The trailing `while j < m` loop: remaining log records become
`extra_log_tail` unmatched entries. -/
def tailLog (df : List DecodedFrame) (j : Nat) : List ULogEntry :=
  match hj : df.get? j with
  | some l => ⟨j, l, .extra_log_tail⟩ :: tailLog df (j + 1)
  | none => []
termination_by df.length - j
decreasing_by
  obtain ⟨hlt, -⟩ := List.get?_eq_some.mp hj
  omega

/-- The trailing `while i < n` loop of `correlate_frames`. The source appends
the unmatched entry for `frames_info[i]`, increments `i`, and then builds a
correlated row from `frames_info[i]` (post-increment) and `decoded_frames[j]`
(with `j ≥ m` here), so the row construction indexes out of range. -/
def tailIvf (fi : List IvfFrame) (df : List DecodedFrame) (i j : Nat)
    (cf : List CorrEntry) (ui : List UIvfEntry) (ul : List ULogEntry) :
    Except PyErr CorrelateResult :=
  match hi : fi.get? i with
  | some c =>
    match fi.get? (i + 1), df.get? j with
    | some c', some l' =>
      tailIvf fi df (i + 1) j (cf ++ [⟨i + 1, j, c', some l', .extra_frame⟩])
        (ui ++ [⟨i, c, .extra_ivf_tail⟩]) ul
    | some _, none => .error .indexError
    | none, _ => .error .indexError
  | none => .ok ⟨cf, ui, ul ++ tailLog df j⟩
termination_by fi.length - i
decreasing_by
  obtain ⟨hlt, -⟩ := List.get?_eq_some.mp hi
  omega

/-- The main `while i < n and j < m` loop of `correlate_frames`. Each arm
follows the source statement-by-statement; in the container-skip and
hard-mismatch arms the source increments the cursors before building the
correlated row, so the row indexes `frames_info[i + 1]` (and, for hard
mismatch, `decoded_frames[j + 1]`, which can be out of range). -/
def corrLoop (fi : List IvfFrame) (df : List DecodedFrame) (i j : Nat)
    (cf : List CorrEntry) (ui : List UIvfEntry) (ul : List ULogEntry) :
    Except PyErr CorrelateResult :=
  match hi : fi.get? i, hj : df.get? j with
  | some c, some l =>
    match stepDecision fi df c l i j with
    | .skipNoAssembled =>
      corrLoop fi df i (j + 1) cf ui (ul ++ [⟨j, l, .extra_log_no_assembled⟩])
    | .directMatch =>
      corrLoop fi df (i + 1) (j + 1) (cf ++ [⟨i, j, c, some l, .noneTag⟩]) ui ul
    | .containerSkip =>
      match fi.get? (i + 1) with
      | some c' =>
        corrLoop fi df (i + 1) j (cf ++ [⟨i + 1, j, c', none, .extra_frame⟩])
          (ui ++ [⟨i, c, .extra_frame⟩]) ul
      | none => .error .indexError
    | .logSkip =>
      corrLoop fi df i (j + 1) cf ui (ul ++ [⟨j, l, .extra_log⟩])
    | .hardMismatch =>
      match fi.get? (i + 1), df.get? (j + 1) with
      | some c', some l' =>
        corrLoop fi df (i + 1) (j + 1)
          (cf ++ [⟨i + 1, j + 1, c', some l', .mismatch⟩])
          (ui ++ [⟨i, c, .mismatch⟩]) (ul ++ [⟨j, l, .mismatch⟩])
      | some _, none => .error .indexError
      | none, _ => .error .indexError
  | _, _ => tailIvf fi df i j cf ui ul
termination_by (fi.length - i) + (df.length - j)
decreasing_by
  all_goals
    obtain ⟨hlt1, -⟩ := List.get?_eq_some.mp hi
    obtain ⟨hlt2, -⟩ := List.get?_eq_some.mp hj
    omega

/-- The Correlator `correlate_frames(frames_info, decoded_frames)`. -/
def correlate_frames (frames_info : List IvfFrame)
    (decoded_frames : List DecodedFrame) : Except PyErr CorrelateResult :=
  corrLoop frames_info decoded_frames 0 0 [] [] []

/-- One line of the rtc log, after the regex layer: either an
`AssembledFrame:` match, a `Decoded frame:` match, or neither. -/
inductive LogLine where
  | assembledLine (a : AssembledInfo)
  | decodedLine (ts First Last qp w h : Nat) (frameType : String)
  | otherLine
deriving DecidableEq, Repr

/-- Python-dict assignment `assembled_frames[key] = v` on an insertion-ordered
association list: replace the value at an existing key, else append. -/
def dictSet (m : List ((Nat × Nat) × AssembledInfo)) (k : Nat × Nat)
    (v : AssembledInfo) : List ((Nat × Nat) × AssembledInfo) :=
  if m.any (fun e => decide (e.1 = k)) then
    m.map (fun e => if e.1 = k then (k, v) else e)
  else m ++ [(k, v)]

/-- Python-dict lookup `assembled_frames.get(key, None)`. -/
def dictGet (m : List ((Nat × Nat) × AssembledInfo)) (k : Nat × Nat) :
    Option AssembledInfo :=
  (m.find? (fun e => decide (e.1 = k))).map (fun e => e.2)

/-- State of the line scan of `parse_rtc_log`. -/
structure ScanState where
  assembled_frames : List ((Nat × Nat) × AssembledInfo)
  decoded_frames : List DecodedFrame
deriving DecidableEq, Repr

/-- Processing of one log line by `parse_rtc_log`: an assembled line updates
the keyed map (last write wins), a decoded line appends a record with
`RelativeTime = ts / 1e6` and a deferred (`None`) join. -/
def scanLine (s : ScanState) : LogLine → ScanState
  | .assembledLine a =>
    { s with assembled_frames := dictSet s.assembled_frames (a.First, a.Last) a }
  | .decodedLine ts first last qp w h ftype =>
    { s with decoded_frames := s.decoded_frames ++
        [{ RelativeTime := (ts : ℚ) / 1000000, ts := ts, First := first,
           Last := last, qp := qp, w := w, h := h, frameType := ftype,
           Assembled := none }] }
  | .otherLine => s

/-- Comparison key of the sort `decoded_frames.sort(key=lambda x: x["ts"])`. -/
def tsLE (a b : DecodedFrame) : Prop := a.ts ≤ b.ts

instance : DecidableRel tsLE := fun a b => Nat.decLe a.ts b.ts

instance : IsTotal DecodedFrame tsLE := ⟨fun a b => Nat.le_total a.ts b.ts⟩

instance : IsTrans DecodedFrame tsLE := ⟨fun _ _ _ h1 h2 => Nat.le_trans h1 h2⟩

/-- The Log Parser `parse_rtc_log`, over the line abstraction. After the scan
the decoded records are sorted by `ts` (a stable sort, modelled by insertion
sort); then `decoded_frames[0]["RelativeTime"]` is read — an `IndexError` when
no line matched the decoded pattern — and every record is joined with the
assembled map and rebased by that first time. -/
def parse_rtc_log (lines : List LogLine) :
    Except PyErr (List DecodedFrame × List ((Nat × Nat) × AssembledInfo)) :=
  match hs : List.insertionSort tsLE
      (lines.foldl scanLine ⟨[], []⟩).decoded_frames with
  | [] => .error .indexError
  | d0 :: rest =>
    .ok ((d0 :: rest).map (fun f =>
      { f with
        Assembled := dictGet (lines.foldl scanLine ⟨[], []⟩).assembled_frames
          (f.First, f.Last),
        RelativeTime := f.RelativeTime - d0.RelativeTime }),
      (lines.foldl scanLine ⟨[], []⟩).assembled_frames)

/-- One frame as returned by `packet.decode()` in the libav abstraction. -/
structure AVFrame where
  width : Nat
  height : Nat
  key_frame : Bool
  pict_type : String
  is_corrupt : Bool
deriving DecidableEq, Repr

/-- One packet as yielded by `container.demux(stream)`: its transport size,
its pts, and the frames `packet.decode()` produces from it. -/
structure AVPacket where
  size : Nat
  pts : Int
  frames : List AVFrame
deriving DecidableEq, Repr

/-- One video stream of a container. -/
structure AVStream where
  time_base : ℚ
  packets : List AVPacket
deriving DecidableEq, Repr

/-- A container as opened by `av.open`: its video streams. -/
structure AVContainer where
  video_streams : List AVStream
deriving DecidableEq, Repr

/-- Result of `parse_frame_dump`: the returned list plus the duplicate-frame
warning counter (`dup_count`; the warning is printed iff it is positive). -/
structure FrameDumpResult where
  frames_info : List IvfFrame
  dup_count : Nat
deriving DecidableEq, Repr

/-- The packet loop of `parse_frame_dump`: zero-size packets are skipped
outright; packets whose decode yields other than exactly one frame bump
`dup_count` and are skipped; otherwise a record is appended, with times
relative to the first kept packet. -/
def frameDumpLoop (time_base : ℚ) (packets : List AVPacket)
    (first_time : Option ℚ) (dup_count : Nat) (acc : List IvfFrame) :
    FrameDumpResult :=
  match packets with
  | [] => ⟨acc, dup_count⟩
  | p :: rest =>
    if p.size = 0 then frameDumpLoop time_base rest first_time dup_count acc
    else
      match p.frames with
      | [f] =>
        let t : ℚ := (p.pts : ℚ) * time_base
        let ft : ℚ := match first_time with | none => t | some t0 => t0
        frameDumpLoop time_base rest (some ft) dup_count
          (acc ++ [{ RelativeTime := t - ft, time := t, pts := p.pts,
                     size := p.size, width := f.width, height := f.height,
                     key_frame := f.key_frame, pict_type := f.pict_type,
                     is_corrupt := f.is_corrupt }])
      | _ => frameDumpLoop time_base rest first_time (dup_count + 1) acc

/-- The Frame Extractor `parse_frame_dump`: an empty list when the container
has no video stream, else the packet loop over the first video stream. -/
def parse_frame_dump (container : AVContainer) : FrameDumpResult :=
  match container.video_streams with
  | [] => ⟨[], 0⟩
  | stream :: _ => frameDumpLoop stream.time_base stream.packets none 0 []

/-! Unfolding equations for the loops, one per source branch. -/

theorem corrLoop_eq_skipNoAssembled (fi : List IvfFrame) (df : List DecodedFrame)
    {i j : Nat} {c : IvfFrame} {l : DecodedFrame}
    (cf : List CorrEntry) (ui : List UIvfEntry) (ul : List ULogEntry)
    (hi : fi.get? i = some c) (hj : df.get? j = some l)
    (hstep : stepDecision fi df c l i j = .skipNoAssembled) :
    corrLoop fi df i j cf ui ul =
      corrLoop fi df i (j + 1) cf ui (ul ++ [⟨j, l, .extra_log_no_assembled⟩]) := by
  rw [corrLoop.eq_def, hi, hj]
  simp only [hstep]

theorem corrLoop_eq_directMatch (fi : List IvfFrame) (df : List DecodedFrame)
    {i j : Nat} {c : IvfFrame} {l : DecodedFrame}
    (cf : List CorrEntry) (ui : List UIvfEntry) (ul : List ULogEntry)
    (hi : fi.get? i = some c) (hj : df.get? j = some l)
    (hstep : stepDecision fi df c l i j = .directMatch) :
    corrLoop fi df i j cf ui ul =
      corrLoop fi df (i + 1) (j + 1)
        (cf ++ [⟨i, j, c, some l, .noneTag⟩]) ui ul := by
  rw [corrLoop.eq_def, hi, hj]
  simp only [hstep]

theorem corrLoop_eq_containerSkip (fi : List IvfFrame) (df : List DecodedFrame)
    {i j : Nat} {c c' : IvfFrame} {l : DecodedFrame}
    (cf : List CorrEntry) (ui : List UIvfEntry) (ul : List ULogEntry)
    (hi : fi.get? i = some c) (hj : df.get? j = some l)
    (hstep : stepDecision fi df c l i j = .containerSkip)
    (hc' : fi.get? (i + 1) = some c') :
    corrLoop fi df i j cf ui ul =
      corrLoop fi df (i + 1) j (cf ++ [⟨i + 1, j, c', none, .extra_frame⟩])
        (ui ++ [⟨i, c, .extra_frame⟩]) ul := by
  rw [corrLoop.eq_def, hi, hj]
  simp only [hstep, hc']

theorem corrLoop_eq_logSkip (fi : List IvfFrame) (df : List DecodedFrame)
    {i j : Nat} {c : IvfFrame} {l : DecodedFrame}
    (cf : List CorrEntry) (ui : List UIvfEntry) (ul : List ULogEntry)
    (hi : fi.get? i = some c) (hj : df.get? j = some l)
    (hstep : stepDecision fi df c l i j = .logSkip) :
    corrLoop fi df i j cf ui ul =
      corrLoop fi df i (j + 1) cf ui (ul ++ [⟨j, l, .extra_log⟩]) := by
  rw [corrLoop.eq_def, hi, hj]
  simp only [hstep]

theorem corrLoop_eq_hardMismatch (fi : List IvfFrame) (df : List DecodedFrame)
    {i j : Nat} {c c' : IvfFrame} {l l' : DecodedFrame}
    (cf : List CorrEntry) (ui : List UIvfEntry) (ul : List ULogEntry)
    (hi : fi.get? i = some c) (hj : df.get? j = some l)
    (hstep : stepDecision fi df c l i j = .hardMismatch)
    (hc' : fi.get? (i + 1) = some c') (hl' : df.get? (j + 1) = some l') :
    corrLoop fi df i j cf ui ul =
      corrLoop fi df (i + 1) (j + 1)
        (cf ++ [⟨i + 1, j + 1, c', some l', .mismatch⟩])
        (ui ++ [⟨i, c, .mismatch⟩]) (ul ++ [⟨j, l, .mismatch⟩]) := by
  rw [corrLoop.eq_def, hi, hj]
  simp only [hstep, hc', hl']

theorem corrLoop_eq_hardMismatch_err_fi (fi : List IvfFrame)
    (df : List DecodedFrame) {i j : Nat} {c : IvfFrame} {l : DecodedFrame}
    (cf : List CorrEntry) (ui : List UIvfEntry) (ul : List ULogEntry)
    (hi : fi.get? i = some c) (hj : df.get? j = some l)
    (hstep : stepDecision fi df c l i j = .hardMismatch)
    (hc' : fi.get? (i + 1) = none) :
    corrLoop fi df i j cf ui ul = .error .indexError := by
  rw [corrLoop.eq_def, hi, hj]
  simp only [hstep, hc']

theorem corrLoop_eq_hardMismatch_err_df (fi : List IvfFrame)
    (df : List DecodedFrame) {i j : Nat} {c c' : IvfFrame} {l : DecodedFrame}
    (cf : List CorrEntry) (ui : List UIvfEntry) (ul : List ULogEntry)
    (hi : fi.get? i = some c) (hj : df.get? j = some l)
    (hstep : stepDecision fi df c l i j = .hardMismatch)
    (hc' : fi.get? (i + 1) = some c') (hl' : df.get? (j + 1) = none) :
    corrLoop fi df i j cf ui ul = .error .indexError := by
  rw [corrLoop.eq_def, hi, hj]
  simp only [hstep, hc', hl']

theorem corrLoop_eq_tail_fi (fi : List IvfFrame) (df : List DecodedFrame)
    {i j : Nat} (cf : List CorrEntry) (ui : List UIvfEntry) (ul : List ULogEntry)
    (hi : fi.get? i = none) :
    corrLoop fi df i j cf ui ul = tailIvf fi df i j cf ui ul := by
  rw [corrLoop.eq_def, hi]

theorem corrLoop_eq_tail_df (fi : List IvfFrame) (df : List DecodedFrame)
    {i j : Nat} {c : IvfFrame} (cf : List CorrEntry) (ui : List UIvfEntry)
    (ul : List ULogEntry) (hi : fi.get? i = some c) (hj : df.get? j = none) :
    corrLoop fi df i j cf ui ul = tailIvf fi df i j cf ui ul := by
  rw [corrLoop.eq_def, hi, hj]

theorem tailIvf_eq_ok (fi : List IvfFrame) (df : List DecodedFrame)
    {i j : Nat} (cf : List CorrEntry) (ui : List UIvfEntry) (ul : List ULogEntry)
    (hi : fi.get? i = none) :
    tailIvf fi df i j cf ui ul = .ok ⟨cf, ui, ul ++ tailLog df j⟩ := by
  rw [tailIvf.eq_def, hi]

theorem tailIvf_eq_step (fi : List IvfFrame) (df : List DecodedFrame)
    {i j : Nat} {c c' : IvfFrame} {l' : DecodedFrame}
    (cf : List CorrEntry) (ui : List UIvfEntry) (ul : List ULogEntry)
    (hi : fi.get? i = some c) (hc' : fi.get? (i + 1) = some c')
    (hl' : df.get? j = some l') :
    tailIvf fi df i j cf ui ul =
      tailIvf fi df (i + 1) j (cf ++ [⟨i + 1, j, c', some l', .extra_frame⟩])
        (ui ++ [⟨i, c, .extra_ivf_tail⟩]) ul := by
  rw [tailIvf.eq_def, hi]
  simp only [hc', hl']

theorem tailIvf_eq_err_fi (fi : List IvfFrame) (df : List DecodedFrame)
    {i j : Nat} {c : IvfFrame} (cf : List CorrEntry) (ui : List UIvfEntry)
    (ul : List ULogEntry) (hi : fi.get? i = some c)
    (hc' : fi.get? (i + 1) = none) :
    tailIvf fi df i j cf ui ul = .error .indexError := by
  rw [tailIvf.eq_def, hi]
  simp only [hc']

theorem tailIvf_eq_err_df (fi : List IvfFrame) (df : List DecodedFrame)
    {i j : Nat} {c c' : IvfFrame} (cf : List CorrEntry) (ui : List UIvfEntry)
    (ul : List ULogEntry) (hi : fi.get? i = some c)
    (hc' : fi.get? (i + 1) = some c') (hj : df.get? j = none) :
    tailIvf fi df i j cf ui ul = .error .indexError := by
  rw [tailIvf.eq_def, hi]
  simp only [hc', hj]

/-- Unfolding of `is_match` as a proposition. -/
theorem is_match_iff (c : IvfFrame) (l : DecodedFrame) :
    is_match c l = true ↔
      ∃ a, l.Assembled = some a ∧ c.width = l.w ∧ c.height = l.h ∧
        c.size = a.EncodedBufsz := by
  unfold is_match
  cases h : l.Assembled with
  | none => simp
  | some a => simp [Bool.and_assoc]

/-! Characterization of the branch selection, following the source's
if/elif order. -/

theorem stepDecision_eq_skipNoAssembled_iff (fi : List IvfFrame)
    (df : List DecodedFrame) (c : IvfFrame) (l : DecodedFrame) (i j : Nat) :
    stepDecision fi df c l i j = .skipNoAssembled ↔ l.Assembled = none := by
  unfold stepDecision
  split_ifs with h1 h2 h3 h4 <;> simp_all [Option.isNone_iff_eq_none]

theorem stepDecision_eq_directMatch_iff (fi : List IvfFrame)
    (df : List DecodedFrame) (c : IvfFrame) (l : DecodedFrame) (i j : Nat) :
    stepDecision fi df c l i j = .directMatch ↔ is_match c l = true := by
  unfold stepDecision
  have hmn : l.Assembled = none → is_match c l = false := by
    intro h
    unfold is_match
    rw [h]
  split_ifs with h1 h2 h3 h4 <;>
    simp_all [Option.isNone_iff_eq_none]

theorem stepDecision_eq_containerSkip_iff (fi : List IvfFrame)
    (df : List DecodedFrame) (c : IvfFrame) (l : DecodedFrame) (i j : Nat) :
    stepDecision fi df c l i j = .containerSkip ↔
      l.Assembled ≠ none ∧ is_match c l = false ∧
        skip_ivf_realigns fi df i j = true := by
  unfold stepDecision
  split_ifs with h1 h2 h3 h4 <;> simp_all [Option.isNone_iff_eq_none]

theorem stepDecision_eq_logSkip_iff (fi : List IvfFrame)
    (df : List DecodedFrame) (c : IvfFrame) (l : DecodedFrame) (i j : Nat) :
    stepDecision fi df c l i j = .logSkip ↔
      l.Assembled ≠ none ∧ is_match c l = false ∧
        skip_ivf_realigns fi df i j = false ∧
        skip_log_realigns fi df i j = true := by
  unfold stepDecision
  split_ifs with h1 h2 h3 h4 <;> simp_all [Option.isNone_iff_eq_none]

theorem stepDecision_eq_hardMismatch_iff (fi : List IvfFrame)
    (df : List DecodedFrame) (c : IvfFrame) (l : DecodedFrame) (i j : Nat) :
    stepDecision fi df c l i j = .hardMismatch ↔
      l.Assembled ≠ none ∧ is_match c l = false ∧
        skip_ivf_realigns fi df i j = false ∧
        skip_log_realigns fi df i j = false := by
  unfold stepDecision
  split_ifs with h1 h2 h3 h4 <;> simp_all [Option.isNone_iff_eq_none]

/-- Match soundness of one correlated row: a row tagged `sync_error=none` has
both sides present and they satisfy `is_match` exactly. -/
def matchSound (e : CorrEntry) : Prop :=
  e.sync_error = SyncTag.noneTag →
    ∃ l a, e.log = some l ∧ l.Assembled = some a ∧
      e.ivf.width = l.w ∧ e.ivf.height = l.h ∧ e.ivf.size = a.EncodedBufsz

theorem tailIvf_sound (fi : List IvfFrame) (df : List DecodedFrame)
    (i j : Nat) (cf : List CorrEntry) (ui : List UIvfEntry)
    (ul : List ULogEntry) :
    ∀ r, tailIvf fi df i j cf ui ul = .ok r →
      (∀ e ∈ cf, matchSound e) → ∀ e ∈ r.correlated_frames, matchSound e := by
  induction i, j, cf, ui, ul using tailIvf.induct fi df with
  | case1 i j cf ui ul c hi c' l' hl' hc' ih =>
    intro r h hcf
    rw [tailIvf_eq_step fi df cf ui ul hi hc' hl'] at h
    refine ih r h ?_
    intro e he
    rcases List.mem_append.mp he with h1 | h2
    · exact hcf e h1
    · simp only [List.mem_singleton] at h2
      subst h2
      intro hsync
      simp at hsync
  | case2 i j cf ui ul c hi val hj hc' =>
    intro r h hcf
    rw [tailIvf_eq_err_df fi df cf ui ul hi hc' hj] at h
    simp at h
  | case3 i j cf ui ul c hi hc' =>
    intro r h hcf
    rw [tailIvf_eq_err_fi fi df cf ui ul hi hc'] at h
    simp at h
  | case4 i j cf ui ul hi =>
    intro r h hcf
    rw [tailIvf_eq_ok fi df cf ui ul hi] at h
    simp only [Except.ok.injEq] at h
    subst h
    exact hcf

theorem corrLoop_sound (fi : List IvfFrame) (df : List DecodedFrame)
    (i j : Nat) (cf : List CorrEntry) (ui : List UIvfEntry)
    (ul : List ULogEntry) :
    ∀ r, corrLoop fi df i j cf ui ul = .ok r →
      (∀ e ∈ cf, matchSound e) → ∀ e ∈ r.correlated_frames, matchSound e := by
  induction i, j, cf, ui, ul using corrLoop.induct fi df with
  | case1 i j cf ui ul c l hi hj hstep ih =>
    intro r h hcf
    rw [corrLoop_eq_skipNoAssembled fi df cf ui ul hi hj hstep] at h
    exact ih r h hcf
  | case2 i j cf ui ul c l hi hj hstep ih =>
    intro r h hcf
    rw [corrLoop_eq_directMatch fi df cf ui ul hi hj hstep] at h
    refine ih r h ?_
    intro e he
    rcases List.mem_append.mp he with h1 | h2
    · exact hcf e h1
    · simp only [List.mem_singleton] at h2
      subst h2
      intro _
      have hm := (stepDecision_eq_directMatch_iff fi df c l i j).mp hstep
      obtain ⟨a, ha, hw, hh, hsz⟩ := (is_match_iff c l).mp hm
      exact ⟨l, a, rfl, ha, hw, hh, hsz⟩
  | case3 i j cf ui ul c l hi hj hstep c' hc' ih =>
    intro r h hcf
    rw [corrLoop_eq_containerSkip fi df cf ui ul hi hj hstep hc'] at h
    refine ih r h ?_
    intro e he
    rcases List.mem_append.mp he with h1 | h2
    · exact hcf e h1
    · simp only [List.mem_singleton] at h2
      subst h2
      intro hsync
      simp at hsync
  | case4 i j cf ui ul c l hi hj hstep hc' =>
    intro r h hcf
    have hs := ((stepDecision_eq_containerSkip_iff fi df c l i j).mp hstep).2.2
    unfold skip_ivf_realigns at hs
    simp only [Bool.and_eq_true, decide_eq_true_eq] at hs
    have hlen := List.get?_eq_none.mp hc'
    omega
  | case5 i j cf ui ul c l hi hj hstep ih =>
    intro r h hcf
    rw [corrLoop_eq_logSkip fi df cf ui ul hi hj hstep] at h
    exact ih r h hcf
  | case6 i j cf ui ul c l hi hj hstep c' l' hl' hc' ih =>
    intro r h hcf
    rw [corrLoop_eq_hardMismatch fi df cf ui ul hi hj hstep hc' hl'] at h
    refine ih r h ?_
    intro e he
    rcases List.mem_append.mp he with h1 | h2
    · exact hcf e h1
    · simp only [List.mem_singleton] at h2
      subst h2
      intro hsync
      simp at hsync
  | case7 i j cf ui ul c l hi hj hstep val hl' hc' =>
    intro r h hcf
    rw [corrLoop_eq_hardMismatch_err_df fi df cf ui ul hi hj hstep hc' hl'] at h
    simp at h
  | case8 i j cf ui ul c l hi hj hstep hc' =>
    intro r h hcf
    rw [corrLoop_eq_hardMismatch_err_fi fi df cf ui ul hi hj hstep hc'] at h
    simp at h
  | case9 i j cf ui ul hnone =>
    intro r h hcf
    have htail : corrLoop fi df i j cf ui ul = tailIvf fi df i j cf ui ul := by
      cases hi : fi.get? i with
      | none => exact corrLoop_eq_tail_fi fi df cf ui ul hi
      | some c =>
        cases hj : df.get? j with
        | none => exact corrLoop_eq_tail_df fi df cf ui ul hi hj
        | some l => exact absurd (hnone c l hi hj) not_false
    rw [htail] at h
    exact tailIvf_sound fi df i j cf ui ul r h hcf

/-! Concrete inputs used by witnesses and counterexamples. -/

/-- Concrete container frame with the given size, width and height. -/
def mkIvf (sz w h : Nat) : IvfFrame :=
  ⟨0, 0, 0, sz, w, h, false, "P", false⟩

/-- Concrete log record whose assembled join carries the given size. -/
def mkLog (sz w h : Nat) : DecodedFrame :=
  ⟨0, 0, 0, 0, 0, w, h, "delta", some ⟨0, 0, sz, 0, 0, 0, 0⟩⟩

/-- Expected output of the Correlator on one matching pair. -/
def resMatch1 : CorrelateResult :=
  ⟨[⟨0, 0, mkIvf 100 640 480, some (mkLog 100 640 480), .noneTag⟩], [], []⟩

/-- Output of the Correlator on the container-skip scenario
(container sizes 10, 20, 30 against log sizes 20, 30). -/
def resSkip : CorrelateResult :=
  ⟨[⟨1, 0, mkIvf 20 640 480, none, .extra_frame⟩,
    ⟨1, 0, mkIvf 20 640 480, some (mkLog 20 640 480), .noneTag⟩,
    ⟨2, 1, mkIvf 30 640 480, some (mkLog 30 640 480), .noneTag⟩],
   [⟨0, mkIvf 10 640 480, .extra_frame⟩], []⟩

/-- Output of the Correlator on the hard-mismatch scenario
(container sizes 10, 20 against log sizes 11, 20). -/
def resMis : CorrelateResult :=
  ⟨[⟨1, 1, mkIvf 20 640 480, some (mkLog 20 640 480), .mismatch⟩,
    ⟨1, 1, mkIvf 20 640 480, some (mkLog 20 640 480), .noneTag⟩],
   [⟨0, mkIvf 10 640 480, .mismatch⟩], [⟨0, mkLog 11 640 480, .mismatch⟩]⟩

/-- C4: every output record of the Correlator tagged sync_error=none has both
a container side and a log side present, and satisfies exactly the match
predicate: Assembled present, width, height and encoded size agree. -/
theorem C4_match_soundness (fi : List IvfFrame) (df : List DecodedFrame)
    (r : CorrelateResult) (h : correlate_frames fi df = .ok r) :
    ∀ e ∈ r.correlated_frames, e.sync_error = SyncTag.noneTag →
      ∃ l a, e.log = some l ∧ l.Assembled = some a ∧
        e.ivf.width = l.w ∧ e.ivf.height = l.h ∧
        e.ivf.size = a.EncodedBufsz := by
  exact corrLoop_sound fi df 0 0 [] [] [] r h (by intro e he; simp at he)

/-- Witness for C4 at a concrete one-pair run. -/
theorem C4_match_soundness_witness :
    correlate_frames [mkIvf 100 640 480] [mkLog 100 640 480] = .ok resMatch1 ∧
      ∀ e ∈ resMatch1.correlated_frames, e.sync_error = SyncTag.noneTag →
        ∃ l a, e.log = some l ∧ l.Assembled = some a ∧
          e.ivf.width = l.w ∧ e.ivf.height = l.h ∧
          e.ivf.size = a.EncodedBufsz := by
  have hv : correlate_frames [mkIvf 100 640 480] [mkLog 100 640 480] =
      .ok resMatch1 := by
    simp [correlate_frames, corrLoop, tailIvf, tailLog, stepDecision,
      skip_ivf_realigns, skip_log_realigns, is_matchO, is_match, mkIvf, mkLog,
      resMatch1]
  exact ⟨hv, C4_match_soundness _ _ _ hv⟩

/-- C2, failing input: with one container frame and an empty log, the main
loop never runs and the container-tail loop raises IndexError: it increments
`i` to 1 before building the row from `frames_info[i]`, and reads
`decoded_frames[j]` with `j = m = 0`. The claim that `correlate_frames`
never aborts is false on the code. -/
theorem C2_tail_abort :
    correlate_frames [mkIvf 10 640 480] [] = .error .indexError := by
  simp [correlate_frames, corrLoop, tailIvf, mkIvf]

/-- C1, failing input: on the container-skip scenario the output covers
container frame 1 twice — once in the extra_frame placeholder row built after
`i += 1`, once in the following matched row — so the total coverage claim
(each container frame in exactly one output record) is false on the code. -/
theorem C1_coverage_violation :
    correlate_frames [mkIvf 10 640 480, mkIvf 20 640 480, mkIvf 30 640 480]
        [mkLog 20 640 480, mkLog 30 640 480] = .ok resSkip ∧
      ((resSkip.correlated_frames.filter
          (fun e => decide (e.ivf = mkIvf 20 640 480))).length
        + (resSkip.unmatched_ivf.filter
            (fun e => decide (e.ivf = mkIvf 20 640 480))).length) = 2 := by
  constructor
  · simp [correlate_frames, corrLoop, tailIvf, tailLog, stepDecision,
      skip_ivf_realigns, skip_log_realigns, is_matchO, is_match, mkIvf, mkLog,
      resSkip]
  · decide

/-- C3, failing input: on the hard-mismatch scenario the emitted mismatch row
pairs `container[i+1]` with `log[j+1]` (both cursors are advanced before the
row is built), not the mismatching pair `container[i]`, `log[j]` that the
unmatched lists record; the claim about the emitted record's sides is false
on the code. -/
theorem C3_mismatch_pairs_next :
    correlate_frames [mkIvf 10 640 480, mkIvf 20 640 480]
        [mkLog 11 640 480, mkLog 20 640 480] = .ok resMis ∧
      resMis.correlated_frames.head? =
        some ⟨1, 1, mkIvf 20 640 480, some (mkLog 20 640 480), .mismatch⟩ ∧
      resMis.unmatched_ivf.head? = some ⟨0, mkIvf 10 640 480, .mismatch⟩ ∧
      mkIvf 20 640 480 ≠ mkIvf 10 640 480 ∧
      mkLog 20 640 480 ≠ mkLog 11 640 480 := by
  refine ⟨?_, by decide, by decide, by decide, by decide⟩
  simp [correlate_frames, corrLoop, tailIvf, tailLog, stepDecision,
    skip_ivf_realigns, skip_log_realigns, is_matchO, is_match, mkIvf, mkLog,
    resMis]

/-- C5, failing input: a log with no line matching the decoded pattern —
empty, only unmatched lines, or only assembled lines — leaves
`decoded_frames` empty, and `decoded_frames[0]["RelativeTime"]` then raises
IndexError before the function can return; the claim that such a log yields
empty results instead of failing is false on the code. -/
theorem C5_empty_log_abort :
    parse_rtc_log [] = .error .indexError ∧
      parse_rtc_log [.otherLine] = .error .indexError ∧
      parse_rtc_log [.assembledLine ⟨1, 2, 100, 5, 5, 0, 0⟩] =
        .error .indexError := by
  refine ⟨rfl, rfl, rfl⟩

/-- Scan invariant: every decoded record carries `RelativeTime = ts / 1e6`
before the rebase. -/
theorem scan_decoded_time (lines : List LogLine) (s : ScanState)
    (hs : ∀ d ∈ s.decoded_frames, d.RelativeTime = (d.ts : ℚ) / 1000000) :
    ∀ d ∈ (lines.foldl scanLine s).decoded_frames,
      d.RelativeTime = (d.ts : ℚ) / 1000000 := by
  induction lines generalizing s with
  | nil => exact hs
  | cons ln rest ih =>
    simp only [List.foldl_cons]
    refine ih (scanLine s ln) ?_
    cases ln with
    | assembledLine a => exact hs
    | decodedLine ts first last qp w h ftype =>
      intro d hd
      simp only [scanLine, List.mem_append, List.mem_singleton] at hd
      rcases hd with hd | hd
      · exact hs d hd
      · subst hd; rfl
    | otherLine => exact hs

/-- C6: on every log whose parse returns, the record with the minimum ts
defines time zero — every returned record's `RelativeTime` equals
`ts / 1e6 − t0 / 1e6` for that minimum `t0` — and the minimum rebased
timestamp of the returned sequence is exactly zero. -/
theorem C6_rebase_min_zero (lines : List LogLine) (ds : List DecodedFrame)
    (am : List ((Nat × Nat) × AssembledInfo))
    (h : parse_rtc_log lines = .ok (ds, am)) :
    ∃ t0, (∃ d ∈ ds, d.ts = t0) ∧ (∀ d ∈ ds, t0 ≤ d.ts) ∧
      (∀ d ∈ ds, d.RelativeTime = (d.ts : ℚ) / 1000000 - (t0 : ℚ) / 1000000) ∧
      (∃ d ∈ ds, d.RelativeTime = 0) ∧ (∀ d ∈ ds, 0 ≤ d.RelativeTime) := by
  unfold parse_rtc_log at h
  split at h
  · simp at h
  · rename_i d0 rest hs
    simp only [Except.ok.injEq, Prod.mk.injEq] at h
    obtain ⟨hds, ham⟩ := h
    have hsorted : List.Sorted tsLE (d0 :: rest) := by
      rw [← hs]; exact List.sorted_insertionSort tsLE _
    have hmem : ∀ f ∈ d0 :: rest,
        f ∈ (lines.foldl scanLine ⟨[], []⟩).decoded_frames := by
      intro f hf
      rw [← hs] at hf
      exact (List.perm_insertionSort tsLE _).mem_iff.mp hf
    have htime : ∀ f ∈ d0 :: rest, f.RelativeTime = (f.ts : ℚ) / 1000000 :=
      fun f hf => scan_decoded_time lines ⟨[], []⟩ (by simp) f (hmem f hf)
    refine ⟨d0.ts, ?_, ?_, ?_, ?_, ?_⟩
    · rw [← hds]
      exact ⟨_, List.mem_map_of_mem _ (List.mem_cons_self d0 rest), rfl⟩
    · intro d hd
      rw [← hds] at hd
      obtain ⟨f, hf, rfl⟩ := List.mem_map.mp hd
      rcases List.mem_cons.mp hf with rfl | hf'
      · exact le_refl _
      · exact List.rel_of_sorted_cons hsorted f hf'
    · intro d hd
      rw [← hds] at hd
      obtain ⟨f, hf, rfl⟩ := List.mem_map.mp hd
      simp only
      rw [htime f hf, htime d0 (List.mem_cons_self d0 rest)]
    · rw [← hds]
      refine ⟨_, List.mem_map_of_mem _ (List.mem_cons_self d0 rest), ?_⟩
      exact sub_self _
    · intro d hd
      rw [← hds] at hd
      obtain ⟨f, hf, rfl⟩ := List.mem_map.mp hd
      simp only
      rw [htime f hf, htime d0 (List.mem_cons_self d0 rest), sub_nonneg]
      have hle : d0.ts ≤ f.ts := by
        rcases List.mem_cons.mp hf with rfl | hf'
        · exact le_refl _
        · exact List.rel_of_sorted_cons hsorted f hf'
      have hq : ((d0.ts : ℚ)) ≤ (f.ts : ℚ) := by exact_mod_cast hle
      linarith

/-- Concrete log lines for the C6 witness: two decoded lines out of ts
order, with an unmatched line between them. -/
def linesC6 : List LogLine :=
  [.decodedLine 2000000 1 2 30 640 480 "key", .otherLine,
   .decodedLine 1000000 3 4 25 640 480 "delta"]

/-- Parse result of `linesC6`. -/
def dsC6 : List DecodedFrame :=
  [⟨0, 1000000, 3, 4, 25, 640, 480, "delta", none⟩,
   ⟨1, 2000000, 1, 2, 30, 640, 480, "key", none⟩]

/-- Witness for C6 at the concrete log `linesC6`. -/
theorem C6_rebase_min_zero_witness :
    parse_rtc_log linesC6 = .ok (dsC6, []) ∧
      ∃ t0, (∃ d ∈ dsC6, d.ts = t0) ∧ (∀ d ∈ dsC6, t0 ≤ d.ts) ∧
        (∀ d ∈ dsC6, d.RelativeTime =
          (d.ts : ℚ) / 1000000 - (t0 : ℚ) / 1000000) ∧
        (∃ d ∈ dsC6, d.RelativeTime = 0) ∧ (∀ d ∈ dsC6, 0 ≤ d.RelativeTime) :=
  have hv : parse_rtc_log linesC6 = .ok (dsC6, []) := by
    simp only [parse_rtc_log, linesC6, dsC6, List.foldl, scanLine,
      List.insertionSort, List.orderedInsert, tsLE]
    rw [if_neg (by norm_num : ¬ (2000000 ≤ 1000000))]
    norm_num [dictGet]
  ⟨hv, C6_rebase_min_zero _ _ _ hv⟩

/-- Definition following the spec's words for C8: the assembled record of
the last `AssembledFrame` line with the given key, in log order ("last
occurrence in log order wins"). -/
def specLastAssembled (k : Nat × Nat) : List LogLine → Option AssembledInfo
  | [] => none
  | ln :: rest =>
    match specLastAssembled k rest with
    | some a => some a
    | none =>
      match ln with
      | .assembledLine a => if (a.First, a.Last) = k then some a else none
      | _ => none

/-- The assembled map exactly as the line scan of `parse_rtc_log` builds
it. -/
def assembledMap (lines : List LogLine) : List ((Nat × Nat) × AssembledInfo) :=
  (lines.foldl scanLine ⟨[], []⟩).assembled_frames

/-- Replacing the value at key `k` leaves lookups of other keys unchanged. -/
theorem dictGet_map_ne (m : List ((Nat × Nat) × AssembledInfo))
    (k k' : Nat × Nat) (v : AssembledInfo) (hne : k' ≠ k) :
    dictGet (m.map (fun e => if e.1 = k then (k, v) else e)) k' =
      dictGet m k' := by
  induction m with
  | nil => rfl
  | cons e rest ih =>
    by_cases hek : e.1 = k
    · have h1 : (if e.1 = k then (k, v) else e) = (k, v) := if_pos hek
      simp only [List.map_cons, h1]
      rw [dictGet, List.find?_cons_of_neg _ (by simp [Ne.symm hne]),
        dictGet, List.find?_cons_of_neg _ (by simp [hek ▸ Ne.symm hne])]
      exact ih
  -- e.1 = k, so e.1 ≠ k'
    · have h1 : (if e.1 = k then (k, v) else e) = e := if_neg hek
      simp only [List.map_cons, h1]
      by_cases hek' : e.1 = k'
      · rw [dictGet, List.find?_cons_of_pos _ (by simp [hek']),
          dictGet, List.find?_cons_of_pos _ (by simp [hek'])]
      · rw [dictGet, List.find?_cons_of_neg _ (by simp [hek']),
          dictGet, List.find?_cons_of_neg _ (by simp [hek'])]
        exact ih

/-- Replacing the value at a present key `k` makes lookup of `k` return the
new value. -/
theorem dictGet_map_eq (m : List ((Nat × Nat) × AssembledInfo))
    (k : Nat × Nat) (v : AssembledInfo)
    (hany : m.any (fun e => decide (e.1 = k)) = true) :
    dictGet (m.map (fun e => if e.1 = k then (k, v) else e)) k = some v := by
  induction m with
  | nil => simp at hany
  | cons e rest ih =>
    simp only [List.any_cons, Bool.or_eq_true, decide_eq_true_eq] at hany
    by_cases hek : e.1 = k
    · have h1 : (if e.1 = k then (k, v) else e) = (k, v) := if_pos hek
      simp only [List.map_cons, h1]
      rw [dictGet, List.find?_cons_of_pos _ (by simp)]
      rfl
    · have h1 : (if e.1 = k then (k, v) else e) = e := if_neg hek
      simp only [List.map_cons, h1]
      rw [dictGet, List.find?_cons_of_neg _ (by simp [hek])]
      exact ih (hany.resolve_left hek)

/-- Lookup after appending one entry: the old binding wins if present. -/
theorem dictGet_append_single (m : List ((Nat × Nat) × AssembledInfo))
    (k k' : Nat × Nat) (v : AssembledInfo) :
    dictGet (m ++ [(k, v)]) k' =
      match dictGet m k' with
      | some w => some w
      | none => if k' = k then some v else none := by
  induction m with
  | nil =>
    by_cases h : k' = k
    · rw [List.nil_append, dictGet, List.find?_cons_of_pos _ (by simp [h.symm])]
      simp [dictGet, h]
    · rw [List.nil_append, dictGet,
        List.find?_cons_of_neg _ (by simp; exact fun he => absurd he.symm h)]
      simp [dictGet, h]
  | cons e rest ih =>
    by_cases hek : e.1 = k'
    · rw [List.cons_append, dictGet, List.find?_cons_of_pos _ (by simp [hek]),
        dictGet, List.find?_cons_of_pos _ (by simp [hek])]
      rfl
    · rw [List.cons_append, dictGet, List.find?_cons_of_neg _ (by simp [hek]),
        dictGet, List.find?_cons_of_neg _ (by simp [hek])]
      exact ih

/-- A key no entry carries is not found. -/
theorem dictGet_none_of_any_false (m : List ((Nat × Nat) × AssembledInfo))
    (k : Nat × Nat) (hany : m.any (fun e => decide (e.1 = k)) = false) :
    dictGet m k = none := by
  rw [dictGet, List.find?_eq_none.mpr, Option.map_none']
  intro e he
  simp only [List.any_eq_false] at hany
  exact hany e he

/-- Python-dict update law: lookup after `m[k] = v`. -/
theorem dictGet_dictSet (m : List ((Nat × Nat) × AssembledInfo))
    (k k' : Nat × Nat) (v : AssembledInfo) :
    dictGet (dictSet m k v) k' = if k' = k then some v else dictGet m k' := by
  unfold dictSet
  by_cases hany : m.any (fun e => decide (e.1 = k)) = true
  · rw [if_pos hany]
    by_cases h : k' = k
    · subst h
      rw [if_pos rfl]
      exact dictGet_map_eq m k' v hany
    · rw [if_neg h]
      exact dictGet_map_ne m k k' v h
  · rw [if_neg hany]
    rw [dictGet_append_single]
    by_cases h : k' = k
    · subst h
      rw [dictGet_none_of_any_false m k' (Bool.not_eq_true _ ▸ hany)]
    · cases hm : dictGet m k' with
      | some w => simp [h]
      | none => simp [h]


/-- Key list after `m[k] = v`: unchanged when `k` was present, else extended
by `k`. -/
theorem dictSet_keys (m : List ((Nat × Nat) × AssembledInfo)) (k : Nat × Nat)
    (v : AssembledInfo) :
    (dictSet m k v).map Prod.fst =
      if m.any (fun e => decide (e.1 = k)) then m.map Prod.fst
      else m.map Prod.fst ++ [k] := by
  unfold dictSet
  by_cases hany : m.any (fun e => decide (e.1 = k)) = true
  · rw [if_pos hany, if_pos hany, List.map_map]
    apply List.map_congr_left
    intro e he
    by_cases hek : e.1 = k
    · simp [Function.comp, hek]
    · simp [Function.comp, hek]
  · rw [if_neg hany, if_neg hany]
    simp

/-- Dict update preserves duplicate-freedom of the key list. -/
theorem dictSet_keys_nodup (m : List ((Nat × Nat) × AssembledInfo))
    (k : Nat × Nat) (v : AssembledInfo) (h : (m.map Prod.fst).Nodup) :
    ((dictSet m k v).map Prod.fst).Nodup := by
  rw [dictSet_keys]
  by_cases hany : m.any (fun e => decide (e.1 = k)) = true
  · rw [if_pos hany]
    exact h
  · rw [if_neg hany]
    have hk : k ∉ m.map Prod.fst := by
      intro hmem
      obtain ⟨e, he, hek⟩ := List.mem_map.mp hmem
      have := (List.any_eq_false.mp (Bool.not_eq_true _ ▸ hany)) e he
      simp [hek] at this
    simp [List.nodup_append, h, hk]

/-- The line scan keeps the assembled map's key list duplicate-free. -/
theorem scanFold_keys_nodup (lines : List LogLine) (s : ScanState)
    (h : (s.assembled_frames.map Prod.fst).Nodup) :
    (((lines.foldl scanLine s).assembled_frames).map Prod.fst).Nodup := by
  induction lines generalizing s with
  | nil => exact h
  | cons ln rest ih =>
    simp only [List.foldl_cons]
    refine ih (scanLine s ln) ?_
    cases ln with
    | assembledLine a => exact dictSet_keys_nodup _ _ _ h
    | decodedLine ts first last qp w hh ftype => exact h
    | otherLine => exact h

/-- Lookup in the scanned assembled map is the last assembled line with the
key among the scanned lines, else the lookup in the initial state. -/
theorem scanFold_get (lines : List LogLine) (s : ScanState) (k : Nat × Nat) :
    dictGet (lines.foldl scanLine s).assembled_frames k =
      match specLastAssembled k lines with
      | some a => some a
      | none => dictGet s.assembled_frames k := by
  induction lines generalizing s with
  | nil => rfl
  | cons ln rest ih =>
    simp only [List.foldl_cons]
    rw [ih (scanLine s ln)]
    cases ln with
    | assembledLine a =>
      simp only [scanLine, specLastAssembled]
      rw [dictGet_dictSet]
      cases hlast : specLastAssembled k rest with
      | some a' => rfl
      | none =>
        by_cases hk : k = (a.First, a.Last)
        · rw [if_pos hk, if_pos hk.symm]
        · rw [if_neg hk, if_neg (fun he => hk he.symm)]
    | decodedLine ts first last qp w hh ftype =>
      simp only [scanLine, specLastAssembled]
      cases hlast : specLastAssembled k rest with
      | some a' => rfl
      | none => rfl
    | otherLine =>
      simp only [scanLine, specLastAssembled]
      cases hlast : specLastAssembled k rest with
      | some a' => rfl
      | none => rfl

/-- C8: the Log Parser's assembled map retains at most one entry per
(First, Last) key — its key list is duplicate-free — and the entry retained
for a key is the one from the last assembled line with that key in log order;
moreover the map a successful parse returns is exactly this map. -/
theorem C8_last_write_wins (lines : List LogLine) :
    ((assembledMap lines).map Prod.fst).Nodup ∧
      (∀ k, dictGet (assembledMap lines) k = specLastAssembled k lines) ∧
      ∀ ds am, parse_rtc_log lines = .ok (ds, am) → am = assembledMap lines := by
  refine ⟨scanFold_keys_nodup lines ⟨[], []⟩ (by simp), ?_, ?_⟩
  · intro k
    rw [assembledMap, scanFold_get]
    cases hlast : specLastAssembled k lines with
    | some a => rfl
    | none => rfl
  · intro ds am h
    unfold parse_rtc_log at h
    split at h
    · simp at h
    · simp only [Except.ok.injEq, Prod.mk.injEq] at h
      exact h.2.symm


/-- Concrete log for the C8 witness: two assembled lines sharing the key
(1, 2), a third with key (3, 4), and one decoded line so the parse
returns. -/
def linesC8 : List LogLine :=
  [.assembledLine ⟨1, 2, 100, 5, 5, 0, 0⟩,
   .assembledLine ⟨1, 2, 200, 6, 6, 1, 1⟩,
   .assembledLine ⟨3, 4, 50, 2, 2, 0, 0⟩,
   .decodedLine 1000000 1 2 30 640 480 "key"]

/-- Assembled map built from `linesC8`: the later size-200 entry won. -/
def amC8 : List ((Nat × Nat) × AssembledInfo) :=
  [((1, 2), ⟨1, 2, 200, 6, 6, 1, 1⟩), ((3, 4), ⟨3, 4, 50, 2, 2, 0, 0⟩)]

/-- Parse result of `linesC8`: one decoded record joined with the winning
assembled entry. -/
def dsC8 : List DecodedFrame :=
  [⟨0, 1000000, 1, 2, 30, 640, 480, "key", some ⟨1, 2, 200, 6, 6, 1, 1⟩⟩]

/-- Witness for C8 at the concrete log `linesC8`. -/
theorem C8_last_write_wins_witness :
    ((assembledMap linesC8).map Prod.fst).Nodup ∧
      dictGet (assembledMap linesC8) (1, 2) = specLastAssembled (1, 2) linesC8 ∧
      parse_rtc_log linesC8 = .ok (dsC8, amC8) ∧
      amC8 = assembledMap linesC8 :=
  have hv : parse_rtc_log linesC8 = .ok (dsC8, amC8) := by
    simp only [parse_rtc_log, linesC8, dsC8, amC8, List.foldl, scanLine,
      dictSet, dictGet, List.insertionSort, List.orderedInsert]
    norm_num
  ⟨(C8_last_write_wins linesC8).1, (C8_last_write_wins linesC8).2.1 (1, 2),
   hv, (C8_last_write_wins linesC8).2.2 dsC8 amC8 hv⟩


/-- Provenance relation for C9 and C10: the record carries exactly the fields
`parse_frame_dump` builds from the packet and its single decoded frame. -/
def recOfPacket (rec : IvfFrame) (p : AVPacket) : Prop :=
  p.size ≠ 0 ∧ ∃ f, p.frames = [f] ∧ rec.pts = p.pts ∧ rec.size = p.size ∧
    rec.width = f.width ∧ rec.height = f.height ∧
    rec.key_frame = f.key_frame ∧ rec.pict_type = f.pict_type ∧
    rec.is_corrupt = f.is_corrupt

/-- Every record the packet loop returns was in the accumulator or stems from
a nonzero-size packet that decoded to exactly one frame. -/
theorem frameDumpLoop_frames (tb : ℚ) (ps : List AVPacket) :
    ∀ ft dc acc, ∀ rec ∈ (frameDumpLoop tb ps ft dc acc).frames_info,
      rec ∈ acc ∨ ∃ p ∈ ps, recOfPacket rec p := by
  induction ps with
  | nil => intro ft dc acc rec h; exact Or.inl h
  | cons p rest ih =>
    intro ft dc acc rec hrec
    by_cases hsz : p.size = 0
    · rw [frameDumpLoop, if_pos hsz] at hrec
      rcases ih ft dc acc rec hrec with h | ⟨q, hq, hof⟩
      · exact Or.inl h
      · exact Or.inr ⟨q, List.mem_cons_of_mem p hq, hof⟩
    · rcases hf : p.frames with _ | ⟨f, fs⟩
      · rw [frameDumpLoop, if_neg hsz, hf] at hrec
        rcases ih _ _ acc rec hrec with h | ⟨q, hq, hof⟩
        · exact Or.inl h
        · exact Or.inr ⟨q, List.mem_cons_of_mem p hq, hof⟩
      · rcases fs with _ | ⟨f2, fs2⟩
        · rw [frameDumpLoop, if_neg hsz, hf] at hrec
          rcases ih _ _ _ rec hrec with h | ⟨q, hq, hof⟩
          · rcases List.mem_append.mp h with h1 | h2
            · exact Or.inl h1
            · simp only [List.mem_singleton] at h2
              subst h2
              exact Or.inr ⟨p, List.mem_cons_self p rest,
                hsz, f, hf, rfl, rfl, rfl, rfl, rfl, rfl, rfl⟩
          · exact Or.inr ⟨q, List.mem_cons_of_mem p hq, hof⟩
        · rw [frameDumpLoop, if_neg hsz, hf] at hrec
          rcases ih _ _ acc rec hrec with h | ⟨q, hq, hof⟩
          · exact Or.inl h
          · exact Or.inr ⟨q, List.mem_cons_of_mem p hq, hof⟩

/-- The duplicate counter the packet loop returns counts exactly the
nonzero-size packets that did not decode to exactly one frame. -/
theorem frameDumpLoop_dup (tb : ℚ) (ps : List AVPacket) :
    ∀ ft dc acc, (frameDumpLoop tb ps ft dc acc).dup_count =
      dc + (ps.filter (fun p =>
        decide (p.size ≠ 0) && decide (p.frames.length ≠ 1))).length := by
  induction ps with
  | nil => intro ft dc acc; simp [frameDumpLoop]
  | cons p rest ih =>
    intro ft dc acc
    by_cases hsz : p.size = 0
    · rw [frameDumpLoop, if_pos hsz, ih,
        List.filter_cons_of_neg (by simp [hsz])]
    · rcases hf : p.frames with _ | ⟨f, fs⟩
      · rw [frameDumpLoop, if_neg hsz, hf, ih,
          List.filter_cons_of_pos (by simp [hsz, hf])]
        simp only [List.length_cons]
        omega
      · rcases fs with _ | ⟨f2, fs2⟩
        · rw [frameDumpLoop, if_neg hsz, hf, ih,
            List.filter_cons_of_neg (by simp [hsz, hf])]
        · rw [frameDumpLoop, if_neg hsz, hf, ih,
            List.filter_cons_of_pos (by simp [hsz, hf])]
          simp only [List.length_cons]
          omega


/-- C9: every transport packet whose decode yields more than one frame is
excluded from the Frame Extractor's returned sequence — every returned record
stems from a packet that decoded to exactly one frame — and if any (decoded,
i.e. nonzero-size) packet yields more than one frame, the duplicate-frame
warning counter is positive, so the warning is reported. -/
theorem C9_multi_frame_excluded (c : AVContainer) (s : AVStream)
    (rest : List AVStream) (hc : c.video_streams = s :: rest) :
    (∀ rec ∈ (parse_frame_dump c).frames_info,
      ∃ p ∈ s.packets, p.frames.length = 1 ∧ recOfPacket rec p) ∧
    ((∃ p ∈ s.packets, p.size ≠ 0 ∧ 1 < p.frames.length) →
      0 < (parse_frame_dump c).dup_count) := by
  have hpd : parse_frame_dump c =
      frameDumpLoop s.time_base s.packets none 0 [] := by
    unfold parse_frame_dump
    rw [hc]
  constructor
  · intro rec hrec
    rw [hpd] at hrec
    rcases frameDumpLoop_frames s.time_base s.packets none 0 [] rec hrec with
      h | ⟨p, hp, hof⟩
    · simp at h
    · refine ⟨p, hp, ?_, hof⟩
      obtain ⟨-, f, hf, -⟩ := hof
      rw [hf]
      rfl
  · rintro ⟨p, hp, hsz, hlen⟩
    rw [hpd, frameDumpLoop_dup]
    have hmem : p ∈ s.packets.filter (fun p =>
        decide (p.size ≠ 0) && decide (p.frames.length ≠ 1)) :=
      List.mem_filter.mpr ⟨hp, by simp [hsz]; omega⟩
    have := List.length_pos_of_mem hmem
    omega

/-- C10: a container that opens but has no video stream yields an empty frame
sequence (and a zero counter); with a video stream, the duplicate counter
counts exactly the nonzero-size packets not decoding to one frame — so
zero-size packets never increment it — and every returned record stems from a
nonzero-size packet that decoded to exactly one frame, so zero-size packets
and zero-frame packets are excluded. -/
theorem C10_empty_stream_and_exclusions (c : AVContainer) :
    (c.video_streams = [] → parse_frame_dump c = ⟨[], 0⟩) ∧
    ∀ s rest, c.video_streams = s :: rest →
      (parse_frame_dump c).dup_count =
        (s.packets.filter (fun p =>
          decide (p.size ≠ 0) && decide (p.frames.length ≠ 1))).length ∧
      ∀ rec ∈ (parse_frame_dump c).frames_info,
        ∃ p ∈ s.packets, p.size ≠ 0 ∧ p.frames.length = 1 ∧
          rec.pts = p.pts ∧ rec.size = p.size := by
  constructor
  · intro hc
    unfold parse_frame_dump
    rw [hc]
  · intro s rest hc
    have hpd : parse_frame_dump c =
        frameDumpLoop s.time_base s.packets none 0 [] := by
      unfold parse_frame_dump
      rw [hc]
    constructor
    · rw [hpd, frameDumpLoop_dup]
      omega
    · intro rec hrec
      rw [hpd] at hrec
      rcases frameDumpLoop_frames s.time_base s.packets none 0 [] rec hrec with
        h | ⟨p, hp, hsz, f, hf, hpts, hsize, -⟩
      · simp at h
      · exact ⟨p, hp, hsz, by rw [hf]; rfl, hpts, hsize⟩

/-- Concrete frame for the C9 and C10 witnesses. -/
def avfW : AVFrame := ⟨640, 480, true, "I", false⟩

/-- Concrete stream for the C9 witness: one two-frame packet, one good
packet. -/
def sC9 : AVStream := ⟨1, [⟨5, 0, [avfW, avfW]⟩, ⟨7, 1, [avfW]⟩]⟩

/-- Witness for C9 at a concrete container holding `sC9`. -/
theorem C9_multi_frame_excluded_witness :
    (∀ rec ∈ (parse_frame_dump ⟨[sC9]⟩).frames_info,
      ∃ p ∈ sC9.packets, p.frames.length = 1 ∧ recOfPacket rec p) ∧
      0 < (parse_frame_dump ⟨[sC9]⟩).dup_count :=
  have h := C9_multi_frame_excluded ⟨[sC9]⟩ sC9 [] rfl
  ⟨h.1, h.2 ⟨⟨5, 0, [avfW, avfW]⟩, by simp [sC9], by norm_num, by simp⟩⟩

/-- Concrete stream for the C10 witness: a zero-size packet, a zero-frame
packet and a good packet. -/
def sC10 : AVStream := ⟨1, [⟨0, 0, [avfW]⟩, ⟨5, 1, []⟩, ⟨7, 2, [avfW]⟩]⟩

/-- Witness for C10 at a stream-free container and at one holding `sC10`. -/
theorem C10_empty_stream_and_exclusions_witness :
    parse_frame_dump ⟨[]⟩ = ⟨[], 0⟩ ∧
      (parse_frame_dump ⟨[sC10]⟩).dup_count =
        (sC10.packets.filter (fun p =>
          decide (p.size ≠ 0) && decide (p.frames.length ≠ 1))).length ∧
      ∀ rec ∈ (parse_frame_dump ⟨[sC10]⟩).frames_info,
        ∃ p ∈ sC10.packets, p.size ≠ 0 ∧ p.frames.length = 1 ∧
          rec.pts = p.pts ∧ rec.size = p.size :=
  ⟨(C10_empty_stream_and_exclusions ⟨[]⟩).1 rfl,
   ((C10_empty_stream_and_exclusions ⟨[sC10]⟩).2 sC10 [] rfl).1,
   ((C10_empty_stream_and_exclusions ⟨[sC10]⟩).2 sC10 [] rfl).2⟩


/-- Content of the container-skip condition: both lookahead accesses are in
range and both lookahead matches hold. -/
theorem skip_ivf_realigns_iff (fi : List IvfFrame) (df : List DecodedFrame)
    (i j : Nat) :
    skip_ivf_realigns fi df i j = true ↔
      ∃ c1 c2 l0 l1, fi.get? (i + 1) = some c1 ∧ fi.get? (i + 2) = some c2 ∧
        df.get? j = some l0 ∧ df.get? (j + 1) = some l1 ∧
        is_match c1 l0 = true ∧ is_match c2 l1 = true := by
  unfold skip_ivf_realigns
  constructor
  · intro h
    simp only [Bool.and_eq_true, decide_eq_true_eq] at h
    obtain ⟨⟨-, hm1⟩, -, hm2⟩ := h
    cases hc1 : fi.get? (i + 1) with
    | none => rw [hc1] at hm1; simp [is_matchO] at hm1
    | some c1 =>
      cases hl0 : df.get? j with
      | none => rw [hc1, hl0] at hm1; simp [is_matchO] at hm1
      | some l0 =>
        cases hc2 : fi.get? (i + 2) with
        | none => rw [hc2] at hm2; simp [is_matchO] at hm2
        | some c2 =>
          cases hl1 : df.get? (j + 1) with
          | none => rw [hc2, hl1] at hm2; simp [is_matchO] at hm2
          | some l1 =>
            rw [hc1, hl0] at hm1
            rw [hc2, hl1] at hm2
            simp only [is_matchO] at hm1 hm2
            exact ⟨c1, c2, l0, l1, rfl, rfl, rfl, rfl, hm1, hm2⟩
  · rintro ⟨c1, c2, l0, l1, hc1, hc2, hl0, hl1, hm1, hm2⟩
    obtain ⟨hb1, -⟩ := List.get?_eq_some.mp hc1
    obtain ⟨hb2, -⟩ := List.get?_eq_some.mp hc2
    obtain ⟨hb4, -⟩ := List.get?_eq_some.mp hl1
    rw [hc1, hc2, hl0, hl1]
    simp only [is_matchO, Bool.and_eq_true, decide_eq_true_eq]
    exact ⟨⟨hb1, hm1⟩, ⟨hb2, hb4⟩, hm2⟩

/-- Content of the log-skip condition: both lookahead accesses are in range
and both lookahead matches hold. -/
theorem skip_log_realigns_iff (fi : List IvfFrame) (df : List DecodedFrame)
    (i j : Nat) :
    skip_log_realigns fi df i j = true ↔
      ∃ c0 c1 l1 l2, fi.get? i = some c0 ∧ fi.get? (i + 1) = some c1 ∧
        df.get? (j + 1) = some l1 ∧ df.get? (j + 2) = some l2 ∧
        is_match c0 l1 = true ∧ is_match c1 l2 = true := by
  unfold skip_log_realigns
  constructor
  · intro h
    simp only [Bool.and_eq_true, decide_eq_true_eq] at h
    obtain ⟨⟨-, hm1⟩, -, hm2⟩ := h
    cases hc0 : fi.get? i with
    | none => rw [hc0] at hm1; simp [is_matchO] at hm1
    | some c0 =>
      cases hl1 : df.get? (j + 1) with
      | none => rw [hc0, hl1] at hm1; simp [is_matchO] at hm1
      | some l1 =>
        cases hc1 : fi.get? (i + 1) with
        | none => rw [hc1] at hm2; simp [is_matchO] at hm2
        | some c1 =>
          cases hl2 : df.get? (j + 2) with
          | none => rw [hc1, hl2] at hm2; simp [is_matchO] at hm2
          | some l2 =>
            rw [hc0, hl1] at hm1
            rw [hc1, hl2] at hm2
            simp only [is_matchO] at hm1 hm2
            exact ⟨c0, c1, l1, l2, rfl, rfl, rfl, rfl, hm1, hm2⟩
  · rintro ⟨c0, c1, l1, l2, hc0, hc1, hl1, hl2, hm1, hm2⟩
    obtain ⟨hb1, -⟩ := List.get?_eq_some.mp hc1
    obtain ⟨hb3, -⟩ := List.get?_eq_some.mp hl1
    obtain ⟨hb4, -⟩ := List.get?_eq_some.mp hl2
    rw [hc0, hc1, hl1, hl2]
    simp only [is_matchO, Bool.and_eq_true, decide_eq_true_eq]
    exact ⟨⟨hb3, hm1⟩, ⟨hb1, hb4⟩, hm2⟩


/-- C7: at every main-loop step the four listed branches obey the source's
fixed priority — container-skip only after direct match fails, log-skip only
after both fail, hard mismatch only after all three fail — with container-skip
requiring `is_match(container[i+1], log[j])` and
`is_match(container[i+2], log[j+1])`, log-skip requiring
`is_match(container[i], log[j+1])` and `is_match(container[i+1], log[j+2])`
and advancing `j` alone, and the branch decision inspecting no element beyond
`container[i+2]` and `log[j+2]` (it is invariant under changing any other
element of either input, lengths kept). -/
theorem C7_priority_and_lookahead (fi : List IvfFrame) (df : List DecodedFrame)
    (i j : Nat) (c : IvfFrame) (l : DecodedFrame)
    (hi : fi.get? i = some c) (hj : df.get? j = some l) :
    (stepDecision fi df c l i j = .directMatch → is_match c l = true) ∧
    (stepDecision fi df c l i j = .containerSkip →
      is_match c l = false ∧
      ∃ c1 c2 l1, fi.get? (i + 1) = some c1 ∧ fi.get? (i + 2) = some c2 ∧
        df.get? (j + 1) = some l1 ∧ is_match c1 l = true ∧
        is_match c2 l1 = true) ∧
    (stepDecision fi df c l i j = .logSkip →
      is_match c l = false ∧ skip_ivf_realigns fi df i j = false ∧
      ∃ c1 l1 l2, fi.get? (i + 1) = some c1 ∧ df.get? (j + 1) = some l1 ∧
        df.get? (j + 2) = some l2 ∧ is_match c l1 = true ∧
        is_match c1 l2 = true) ∧
    (stepDecision fi df c l i j = .hardMismatch →
      is_match c l = false ∧ skip_ivf_realigns fi df i j = false ∧
      skip_log_realigns fi df i j = false) ∧
    (stepDecision fi df c l i j = .logSkip → ∀ cf ui ul,
      corrLoop fi df i j cf ui ul =
        corrLoop fi df i (j + 1) cf ui (ul ++ [⟨j, l, .extra_log⟩])) ∧
    (∀ (fi' : List IvfFrame) (df' : List DecodedFrame),
      fi'.length = fi.length → df'.length = df.length →
      fi'.get? i = fi.get? i → fi'.get? (i + 1) = fi.get? (i + 1) →
      fi'.get? (i + 2) = fi.get? (i + 2) → df'.get? j = df.get? j →
      df'.get? (j + 1) = df.get? (j + 1) → df'.get? (j + 2) = df.get? (j + 2) →
      stepDecision fi' df' c l i j = stepDecision fi df c l i j) := by
  refine ⟨?_, ?_, ?_, ?_, ?_, ?_⟩
  · intro h
    exact (stepDecision_eq_directMatch_iff fi df c l i j).mp h
  · intro h
    obtain ⟨-, hmf, hskip⟩ :=
      (stepDecision_eq_containerSkip_iff fi df c l i j).mp h
    refine ⟨hmf, ?_⟩
    obtain ⟨c1, c2, l0, l1, hc1, hc2, hl0, hl1, hm1, hm2⟩ :=
      (skip_ivf_realigns_iff fi df i j).mp hskip
    rw [hj] at hl0
    obtain rfl : l0 = l := by injection hl0 with he; exact he.symm
    exact ⟨c1, c2, l1, hc1, hc2, hl1, hm1, hm2⟩
  · intro h
    obtain ⟨-, hmf, hsi, hsl⟩ :=
      (stepDecision_eq_logSkip_iff fi df c l i j).mp h
    refine ⟨hmf, hsi, ?_⟩
    obtain ⟨c0, c1, l1, l2, hc0, hc1, hl1, hl2, hm1, hm2⟩ :=
      (skip_log_realigns_iff fi df i j).mp hsl
    rw [hi] at hc0
    obtain rfl : c0 = c := by injection hc0 with he; exact he.symm
    exact ⟨c1, l1, l2, hc1, hl1, hl2, hm1, hm2⟩
  · intro h
    obtain ⟨-, hmf, hsi, hsl⟩ :=
      (stepDecision_eq_hardMismatch_iff fi df c l i j).mp h
    exact ⟨hmf, hsi, hsl⟩
  · intro h cf ui ul
    exact corrLoop_eq_logSkip fi df cf ui ul hi hj h
  · intro fi' df' hlen1 hlen2 hf0 hf1 hf2 hd0 hd1 hd2
    have hsi : skip_ivf_realigns fi' df' i j = skip_ivf_realigns fi df i j := by
      unfold skip_ivf_realigns
      rw [hlen1, hlen2, hf1, hf2, hd0, hd1]
    have hsl : skip_log_realigns fi' df' i j = skip_log_realigns fi df i j := by
      unfold skip_log_realigns
      rw [hlen1, hlen2, hf0, hf1, hd1, hd2]
    unfold stepDecision
    rw [hsi, hsl]

/-- Concrete inputs for the C7 witness: the log-skip branch fires at the
start (log sizes 99, 10, 20 against container sizes 10, 20). -/
def fiC7 : List IvfFrame := [mkIvf 10 640 480, mkIvf 20 640 480]

/-- Concrete log records for the C7 witness. -/
def dfC7 : List DecodedFrame :=
  [mkLog 99 640 480, mkLog 10 640 480, mkLog 20 640 480]

/-- Witness for C7 at the concrete inputs `fiC7`, `dfC7`. -/
theorem C7_priority_and_lookahead_witness :
    (stepDecision fiC7 dfC7 (mkIvf 10 640 480) (mkLog 99 640 480) 0 0 =
        .directMatch → is_match (mkIvf 10 640 480) (mkLog 99 640 480) = true) ∧
    (stepDecision fiC7 dfC7 (mkIvf 10 640 480) (mkLog 99 640 480) 0 0 =
        .containerSkip →
      is_match (mkIvf 10 640 480) (mkLog 99 640 480) = false ∧
      ∃ c1 c2 l1, fiC7.get? 1 = some c1 ∧ fiC7.get? 2 = some c2 ∧
        dfC7.get? 1 = some l1 ∧ is_match c1 (mkLog 99 640 480) = true ∧
        is_match c2 l1 = true) ∧
    (stepDecision fiC7 dfC7 (mkIvf 10 640 480) (mkLog 99 640 480) 0 0 =
        .logSkip →
      is_match (mkIvf 10 640 480) (mkLog 99 640 480) = false ∧
      skip_ivf_realigns fiC7 dfC7 0 0 = false ∧
      ∃ c1 l1 l2, fiC7.get? 1 = some c1 ∧ dfC7.get? 1 = some l1 ∧
        dfC7.get? 2 = some l2 ∧ is_match (mkIvf 10 640 480) l1 = true ∧
        is_match c1 l2 = true) ∧
    (stepDecision fiC7 dfC7 (mkIvf 10 640 480) (mkLog 99 640 480) 0 0 =
        .hardMismatch →
      is_match (mkIvf 10 640 480) (mkLog 99 640 480) = false ∧
      skip_ivf_realigns fiC7 dfC7 0 0 = false ∧
      skip_log_realigns fiC7 dfC7 0 0 = false) ∧
    (stepDecision fiC7 dfC7 (mkIvf 10 640 480) (mkLog 99 640 480) 0 0 =
        .logSkip → ∀ cf ui ul,
      corrLoop fiC7 dfC7 0 0 cf ui ul =
        corrLoop fiC7 dfC7 0 1 cf ui
          (ul ++ [⟨0, mkLog 99 640 480, .extra_log⟩])) ∧
    (∀ (fi' : List IvfFrame) (df' : List DecodedFrame),
      fi'.length = fiC7.length → df'.length = dfC7.length →
      fi'.get? 0 = fiC7.get? 0 → fi'.get? 1 = fiC7.get? 1 →
      fi'.get? 2 = fiC7.get? 2 → df'.get? 0 = dfC7.get? 0 →
      df'.get? 1 = dfC7.get? 1 → df'.get? 2 = dfC7.get? 2 →
      stepDecision fi' df' (mkIvf 10 640 480) (mkLog 99 640 480) 0 0 =
        stepDecision fiC7 dfC7 (mkIvf 10 640 480) (mkLog 99 640 480) 0 0) :=
  C7_priority_and_lookahead fiC7 dfC7 0 0 (mkIvf 10 640 480)
    (mkLog 99 640 480) rfl rfl

end Conductor
